import Mathlib

/-!
Verification of the flickwatch watchlist store
(`src/store/watchlistStore.ts`).

The store keeps an in-memory list `items` together with a `hydrated` flag,
and exposes `hydrate`, `isInWatchlist`, `add`, `remove` and `toggle`.
Persistence is a fire-and-forget JSON write of the full list under a single
key; hydration reads that key back, with `JSON.parse` output installed after
an `Array.isArray` check only.

Because `hydrate` installs the raw parsed JSON array verbatim (no
per-element validation), the runtime content of `items` is a list of
JavaScript values, not necessarily well-shaped watchlist items.  We
therefore model items as JSON-like runtime values (`JsVal`) and model the
two strict-equality tests the source performs (`x.id === id`,
`x.mediaType === mediaType`) at that level.  `JSON.parse` / `JSON.stringify`
and `AsyncStorage` are external collaborators: their outcome is passed to
`hydrate` as an explicit `ReadOutcome`, and a persistence payload is
represented by the value-level list that would be stringified.

The operations come in two layers.  The total model (`add`, `remove`,
`toggle`, `isInWatchlist`) treats property access as total (`undefined`
on non-objects) and is exact on states none of whose elements are `null`
or `undefined` — in particular on every state reachable without
hydration.  The fallible model (`addE`, `removeE`, `toggleE`,
`isInWatchlistE`) additionally carries JavaScript's TypeError on property
access of `null`/`undefined` receivers and the `setItem` outcome, and is
proved to agree with the total model exactly on non-throwing states.
-/

namespace Flickwatch

/-- JavaScript runtime values as produced by `JSON.parse`, plus `notSet` for
the result of accessing a missing property.  Numbers are modelled as
integers (all ids in this store are TMDB integer ids). -/
inductive JsVal where
  | null : JsVal
  | bool : Bool → JsVal
  | num : Int → JsVal
  | str : String → JsVal
  | arr : List JsVal → JsVal
  | obj : List (String × JsVal) → JsVal
  | notSet : JsVal

/-- The `mediaType` enum `"movie" | "tv"` of the source. -/
inductive Media where
  | movie : Media
  | tv : Media
deriving DecidableEq

/-- String value of a `Media`, as it appears in JSON payloads. -/
def Media.toStr : Media → String
  | .movie => "movie"
  | .tv => "tv"

/-- The `WatchlistItem` record type of the source:
`{ id: number; mediaType: "movie" | "tv"; title: string; posterPath: string | null }`. -/
structure WatchlistItem where
  id : Int
  mediaType : Media
  title : String
  posterPath : Option String
deriving DecidableEq

/-- JSON encoding of the `posterPath` field (`string | null`). -/
def encodePoster : Option String → JsVal
  | none => .null
  | some s => .str s

/-- The JSON object a `WatchlistItem` serializes to (the element shape of
`JSON.stringify(items)` and of well-formed stored payloads). -/
def encodeItem (it : WatchlistItem) : JsVal :=
  .obj [("id", .num it.id),
        ("mediaType", .str it.mediaType.toStr),
        ("title", .str it.title),
        ("posterPath", encodePoster it.posterPath)]

/-- First-match lookup in a JSON object's field list (keys produced by
`JSON.parse` are unique). -/
def lookupField : List (String × JsVal) → String → JsVal
  | [], _ => .notSet
  | (k, v) :: rest, key => if k == key then v else lookupField rest key

/-- Totalized property access `v.k`: field lookup on objects, `undefined`
otherwise.  This is the access used by the total state-transition model
below; it agrees with JavaScript on every receiver except `null` and
`undefined`, where the real access throws a TypeError.  That error path is
modelled faithfully by `jsFieldE` and the fallible operations `addE`,
`removeE`, `toggleE`, `isInWatchlistE` further down; the total model is
exact on states none of whose elements are `null`/`undefined`. -/
def jsField : JsVal → String → JsVal
  | .obj fields, k => lookupField fields k
  | _, _ => .notSet

/-- Strict equality `v === n` against a number (the only way `===` is
applied to `x.id` in the source: the right operand is a typed number). -/
def jsEqNum : JsVal → Int → Bool
  | .num m, n => m == n
  | _, _ => false

/-- Strict equality `v === s` against a string (used for `x.mediaType`). -/
def jsEqStr : JsVal → String → Bool
  | .str t, s => t == s
  | _, _ => false

/-- The predicate `(x) => x.id === id && x.mediaType === mediaType` used by
`isInWatchlist`, `add` and (negated) `remove`. -/
def keyMatches (x : JsVal) (id : Int) (mediaType : Media) : Bool :=
  jsEqNum (jsField x "id") id && jsEqStr (jsField x "mediaType") mediaType.toStr

/-- The store state: `items` and `hydrated` of `WatchlistState` (the method
fields of the zustand record are modelled as the functions below). -/
structure WatchlistState where
  items : List JsVal
  hydrated : Bool

/-- The state zustand creates the store with: `items: [], hydrated: false`. -/
def initialState : WatchlistState := { items := [], hydrated := false }

/-- Result of a synchronous mutation: the new state, plus the list of
payloads handed to `persist` (each payload is the full `items` sequence that
`JSON.stringify` would serialize). -/
structure MutResult where
  state : WatchlistState
  writes : List (List JsVal)

/-- `isInWatchlist(id, mediaType)`:
`get().items.some((x) => x.id === id && x.mediaType === mediaType)`. -/
def isInWatchlist (s : WatchlistState) (id : Int) (mediaType : Media) : Bool :=
  s.items.any (fun x => keyMatches x id mediaType)

/-- `add(item)`: if an element with the same key exists, return without
touching state or storage; otherwise prepend the item, set the state and
schedule one `persist(next)` write. -/
def add (s : WatchlistState) (item : WatchlistItem) : MutResult :=
  if s.items.any (fun x => keyMatches x item.id item.mediaType) then
    { state := s, writes := [] }
  else
    let next := encodeItem item :: s.items
    { state := { s with items := next }, writes := [next] }

/-- `remove(id, mediaType)`: filter out every element matching the key, set
the state and schedule one `persist(next)` write. -/
def remove (s : WatchlistState) (id : Int) (mediaType : Media) : MutResult :=
  let next := s.items.filter (fun x => !(keyMatches x id mediaType))
  { state := { s with items := next }, writes := [next] }

/-- `toggle(item)`: membership test via `isInWatchlist`, then delegate to
`remove` or `add`. -/
def toggle (s : WatchlistState) (item : WatchlistItem) : MutResult :=
  if isInWatchlist s item.id item.mediaType then
    remove s item.id item.mediaType
  else
    add s item

/-- Outcome of the `AsyncStorage.getItem` + `JSON.parse` steps of
`hydrate`, as produced by the external collaborators:
`readError` = the read rejected; `absent` = `raw` was falsy (`null` or the
empty string), so the source takes the `: []` branch; `parseError` = `raw`
was truthy and `JSON.parse(raw)` threw; `value v` = `raw` was truthy and
parsed to the JSON value `v`. -/
inductive ReadOutcome where
  | readError : ReadOutcome
  | absent : ReadOutcome
  | parseError : ReadOutcome
  | value : JsVal → ReadOutcome

/-- `hydrate()` state effect: on any failure the catch block sets
`{ items: [], hydrated: true }`; on a parsed value, `Array.isArray(parsed)`
decides between installing the array verbatim and falling back to `[]`.
The prior state is replaced, never merged. -/
def hydrate (_s : WatchlistState) (r : ReadOutcome) : WatchlistState :=
  match r with
  | .readError => { items := [], hydrated := true }
  | .absent => { items := [], hydrated := true }
  | .parseError => { items := [], hydrated := true }
  | .value v =>
    match v with
    | .arr xs => { items := xs, hydrated := true }
    | _ => { items := [], hydrated := true }

/-- Outcome of the backing store's `setItem` for one persistence write. -/
inductive WriteOutcome where
  | ok : WriteOutcome
  | fail : String → WriteOutcome

/-- `persist(items)` = `AsyncStorage.setItem(...)`: resolves or rejects
according to the backing store's behaviour. -/
def persistAttempt : WriteOutcome → Except String Unit
  | .ok => .ok ()
  | .fail msg => .error msg

/-- `persist(next).catch(() => {})`: the rejection handler swallows the
failure, so the composite never rejects. -/
def persistCaught (w : WriteOutcome) : Except String Unit :=
  match persistAttempt w with
  | .ok u => .ok u
  | .error _ => .ok ()

/-- Receivers on which JavaScript property access throws a TypeError:
`null` and `undefined`.  Every other value (object, array, number, string,
boolean) either has properties or autoboxes. -/
def throwsOnAccess : JsVal → Bool
  | .null => true
  | .notSet => true
  | _ => false

/-- Property access `v.k` with JavaScript's error behaviour: `null.k` and
`undefined.k` throw a TypeError; objects yield the field; numbers,
strings, booleans and arrays autobox and yield `undefined` for the keys
the store reads.  (`jsField` above is the totalized variant used by the
state-transition model; the two agree exactly on non-throwing
receivers.) -/
def jsFieldE : JsVal → String → Except String JsVal
  | .null, _ => .error "TypeError"
  | .notSet, _ => .error "TypeError"
  | .obj fields, k => .ok (lookupField fields k)
  | _, _ => .ok .notSet

/-- `x.id === id && x.mediaType === mediaType` with JavaScript evaluation
order and error propagation: `&&` short-circuits, so `x.mediaType` is only
accessed when the first comparison was true. -/
def keyMatchesE (x : JsVal) (id : Int) (mediaType : Media) : Except String Bool :=
  match jsFieldE x "id" with
  | .error e => .error e
  | .ok a =>
    if jsEqNum a id then
      match jsFieldE x "mediaType" with
      | .error e => .error e
      | .ok b => .ok (jsEqStr b mediaType.toStr)
    else
      .ok false

/-- `Array.prototype.some` with a fallible callback: elements are tested
in order, the first exception propagates, the scan stops at the first
true. -/
def anyE : List JsVal → (JsVal → Except String Bool) → Except String Bool
  | [], _ => .ok false
  | x :: rest, p =>
    match p x with
    | .error e => .error e
    | .ok true => .ok true
    | .ok false => anyE rest p

/-- `Array.prototype.filter` with a fallible callback: elements are tested
in order and the first exception propagates, aborting the whole filter. -/
def filterE : List JsVal → (JsVal → Except String Bool) → Except String (List JsVal)
  | [], _ => .ok []
  | x :: rest, p =>
    match p x with
    | .error e => .error e
    | .ok b =>
      match filterE rest p with
      | .error e => .error e
      | .ok r => .ok (if b then x :: r else r)

/-- `isInWatchlist` with the property-access error path explicit: the
`some` scan throws if it reaches a `null`/`undefined` element before
finding a match. -/
def isInWatchlistE (s : WatchlistState) (id : Int) (mediaType : Media) :
    Except String Bool :=
  anyE s.items (fun x => keyMatchesE x id mediaType)

/-- `add` with both error paths explicit: the `some` scan can throw a
TypeError (aborting before any mutation or write), and the fire-and-forget
`setItem` rejection is swallowed by the catch. -/
def addE (s : WatchlistState) (item : WatchlistItem) (w : WriteOutcome) :
    Except String MutResult :=
  match anyE s.items (fun x => keyMatchesE x item.id item.mediaType) with
  | .error e => .error e
  | .ok true => .ok { state := s, writes := [] }
  | .ok false =>
    let next := encodeItem item :: s.items
    match persistCaught w with
    | .error e => .error e
    | .ok _ => .ok { state := { s with items := next }, writes := [next] }

/-- `remove` with both error paths explicit: the `filter` can throw a
TypeError mid-scan (aborting before the state is set or any write is
scheduled). -/
def removeE (s : WatchlistState) (id : Int) (mediaType : Media)
    (w : WriteOutcome) : Except String MutResult :=
  match filterE s.items (fun x =>
      match keyMatchesE x id mediaType with
      | .error e => .error e
      | .ok b => .ok (!b)) with
  | .error e => .error e
  | .ok next =>
    match persistCaught w with
    | .error e => .error e
    | .ok _ => .ok { state := { s with items := next }, writes := [next] }

/-- `toggle` with both error paths explicit (the membership scan can
throw; otherwise it delegates). -/
def toggleE (s : WatchlistState) (item : WatchlistItem) (w : WriteOutcome) :
    Except String MutResult :=
  match isInWatchlistE s item.id item.mediaType with
  | .error e => .error e
  | .ok true => removeE s item.id item.mediaType w
  | .ok false => addE s item w

/-- Body of `hydrate` before its catch: the read rejection and the
`JSON.parse` throw escape as errors here. -/
def hydrateBody (r : ReadOutcome) : Except String WatchlistState :=
  match r with
  | .readError => .error "getItem rejected"
  | .absent => .ok { items := [], hydrated := true }
  | .parseError => .error "JSON.parse threw"
  | .value v =>
    match v with
    | .arr xs => .ok { items := xs, hydrated := true }
    | _ => .ok { items := [], hydrated := true }

/-- `hydrate` with its error channel explicit: the catch block turns any
error into `set({ items: [], hydrated: true })`. -/
def hydrateRun (r : ReadOutcome) : Except String WatchlistState :=
  match hydrateBody r with
  | .ok s' => .ok s'
  | .error _ => .ok { items := [], hydrated := true }

/-- One public store operation (the query is included as a state-preserving
step). -/
inductive StoreOp where
  | addOp : WatchlistItem → StoreOp
  | removeOp : Int → Media → StoreOp
  | toggleOp : WatchlistItem → StoreOp
  | queryOp : Int → Media → StoreOp
  | hydrateOp : ReadOutcome → StoreOp

/-- State effect of one operation. -/
def step (s : WatchlistState) : StoreOp → WatchlistState
  | .addOp item => (add s item).state
  | .removeOp id mediaType => (remove s id mediaType).state
  | .toggleOp item => (toggle s item).state
  | .queryOp _ _ => s
  | .hydrateOp r => hydrate s r

/-- Run a sequence of operations from a state. -/
def run (s : WatchlistState) : List StoreOp → WatchlistState
  | [] => s
  | op :: rest => run (step s op) rest

/-- Operations under which `add` is the only way elements enter `items`
(everything except `hydrate`, which installs a parsed payload). -/
def isMutOp : StoreOp → Bool
  | .hydrateOp _ => false
  | _ => true

/-- The `(id, mediaType)` pair of a runtime element, as the source's
predicates read it. -/
def keyOf (x : JsVal) : JsVal × JsVal :=
  (jsField x "id", jsField x "mediaType")

/-- No two elements of the list share the same `(id, mediaType)` pair. -/
def UniqueKeys (l : List JsVal) : Prop :=
  l.Pairwise (fun x y => keyOf x ≠ keyOf y)

/-- Number of elements of `l` matching the key `(id, mediaType)`. -/
def countMatches (l : List JsVal) (id : Int) (mediaType : Media) : Nat :=
  (l.filter (fun x => keyMatches x id mediaType)).length

/-- Iterated `add` of the same item (for the repeated-adds property). -/
def addState (item : WatchlistItem) (s : WatchlistState) : WatchlistState :=
  (add s item).state

/-- Modelled from the spec, section 6 (serialization format): a runtime
value is WatchlistItem-shaped when it is an object with fields `id`
(number), `mediaType` (`"movie"` or `"tv"`), `title` (string) and
`posterPath` (string or null).  The source performs no such per-element
check; this definition only expresses the spec's notion of a valid item for
comparison. -/
def decodeItem (v : JsVal) : Option WatchlistItem :=
  match jsField v "id", jsField v "mediaType",
        jsField v "title", jsField v "posterPath" with
  | .num i, .str m, .str t, p =>
    match (if m == "movie" then some Media.movie
           else if m == "tv" then some Media.tv else none), p with
    | some md, .null => some ⟨i, md, t, none⟩
    | some md, .str ps => some ⟨i, md, t, some ps⟩
    | _, _ => none
  | _, _, _, _ => none

/-! ## Helper lemmas -/

theorem jsEqNum_eq_true_iff (v : JsVal) (n : Int) : jsEqNum v n = true ↔ v = .num n := by
  cases v <;> simp [jsEqNum]

theorem jsEqStr_eq_true_iff (v : JsVal) (s : String) : jsEqStr v s = true ↔ v = .str s := by
  cases v <;> simp [jsEqStr]

theorem keyMatches_iff (x : JsVal) (id : Int) (m : Media) :
    keyMatches x id m = true ↔ keyOf x = (.num id, .str m.toStr) := by
  rw [keyMatches, Bool.and_eq_true, jsEqNum_eq_true_iff, jsEqStr_eq_true_iff,
    keyOf, Prod.mk.injEq]

theorem keyMatches_encode (it : WatchlistItem) :
    keyMatches (encodeItem it) it.id it.mediaType = true := by
  rw [keyMatches_iff]
  rfl

theorem decodeItem_encodeItem (it : WatchlistItem) : decodeItem (encodeItem it) = some it := by
  cases it with
  | mk id mt title pp => cases mt <;> cases pp <;> rfl

/-! ## Claim theorems -/

/-- C9: hydrating the payload that `persist` writes for a list of
watchlist items yields exactly those items — same length, matching
`id`, `mediaType`, `title` and `posterPath` per element (each element
decodes back to the original item) — with `hydrated = true`, replacing
whatever the prior state held (the result does not depend on `s`). -/
theorem hydrate_roundtrip (s : WatchlistState) (l : List WatchlistItem) :
    (hydrate s (.value (.arr (l.map encodeItem)))).items = l.map encodeItem ∧
    (hydrate s (.value (.arr (l.map encodeItem)))).items.length = l.length ∧
    (hydrate s (.value (.arr (l.map encodeItem)))).hydrated = true ∧
    List.Forall₂ (fun e it =>
        jsField e "id" = .num it.id ∧
        jsField e "mediaType" = .str it.mediaType.toStr ∧
        jsField e "title" = .str it.title ∧
        jsField e "posterPath" = encodePoster it.posterPath ∧
        decodeItem e = some it)
      (hydrate s (.value (.arr (l.map encodeItem)))).items l := by
  refine ⟨rfl, by simp [hydrate], rfl, ?_⟩
  show List.Forall₂ _ (l.map encodeItem) l
  induction l with
  | nil => exact List.Forall₂.nil
  | cons hd tl ih =>
    exact List.Forall₂.cons ⟨rfl, rfl, rfl, rfl, decodeItem_encodeItem hd⟩ ih

/-- C10: `hydrate` validates only that the parsed payload is an array —
every parsed array is installed verbatim with no per-element check and no
deduplication; in particular a stored array holding two entries with the
same `(id, mediaType)` yields a state whose `items` contains both. -/
theorem hydrate_no_validation :
    (∀ (s : WatchlistState) (xs : List JsVal),
      (hydrate s (.value (.arr xs))).items = xs) ∧
    (hydrate initialState (.value (.arr
        [encodeItem ⟨1, Media.movie, "A", none⟩,
         encodeItem ⟨1, Media.movie, "A", none⟩]))).items =
      [encodeItem ⟨1, Media.movie, "A", none⟩,
       encodeItem ⟨1, Media.movie, "A", none⟩] ∧
    countMatches (hydrate initialState (.value (.arr
        [encodeItem ⟨1, Media.movie, "A", none⟩,
         encodeItem ⟨1, Media.movie, "A", none⟩]))).items 1 Media.movie = 2 ∧
    (hydrate initialState (.value (.arr
        [encodeItem ⟨1, Media.movie, "A", none⟩,
         encodeItem ⟨1, Media.movie, "A", none⟩]))).hydrated = true :=
  ⟨fun _ _ => rfl, rfl, rfl, rfl⟩

/-- C2 is refuted at this concrete input: the stored payload is a JSON
array whose single element is not WatchlistItem-shaped, yet `hydrate`
installs it verbatim instead of falling back to the empty list. -/
theorem hydrate_malformed_elements_counterexample :
    (hydrate initialState (.value (.arr [.num 42]))).items = [.num 42] ∧
    decodeItem (.num 42) = none ∧
    (hydrate initialState (.value (.arr [.num 42]))).items ≠ [] :=
  ⟨rfl, rfl, fun h => List.cons_ne_nil _ _ h⟩

/-- C2 (amended): `hydrate` never raises — every outcome of the read and
parse resolves through the catch — and it ends with `hydrated = true`
always and `items = []` whenever the payload was absent, unreadable,
unparseable, or parsed to a non-array value.  (A payload parsing to an
array is installed verbatim, even if its elements are not
WatchlistItem-shaped.) -/
theorem hydrate_recovery_amended (s : WatchlistState) (r : ReadOutcome) (v : JsVal) :
    hydrateRun r = .ok (hydrate s r) ∧
    (hydrate s r).hydrated = true ∧
    (hydrate s .readError).items = [] ∧
    (hydrate s .absent).items = [] ∧
    (hydrate s .parseError).items = [] ∧
    ((∀ xs, v ≠ .arr xs) → (hydrate s (.value v)).items = []) := by
  refine ⟨?_, ?_, rfl, rfl, rfl, ?_⟩
  · cases r with
    | value w => cases w <;> rfl
    | _ => rfl
  · cases r with
    | value w => cases w <;> rfl
    | _ => rfl
  · intro h
    cases v with
    | arr xs => exact absurd rfl (h xs)
    | _ => rfl

/-- Witness for C2 (amended) at a concrete input: a payload parsing to a
non-array JSON value resolves to the empty list. -/
theorem hydrate_recovery_amended_witness :
    (hydrate initialState (.value (.num 0))).items = [] :=
  (hydrate_recovery_amended initialState .absent (.num 0)).2.2.2.2.2
    (fun _ h => JsVal.noConfusion h)

/-- C5 is refuted at this concrete input: adding an item that is already
present triggers zero persistence writes, not exactly one. -/
theorem add_write_counterexample :
    (add (add initialState ⟨1, Media.movie, "Test Movie", none⟩).state
        ⟨1, Media.movie, "Test Movie", none⟩).writes.length = 0 ∧
    (add (add initialState ⟨1, Media.movie, "Test Movie", none⟩).state
        ⟨1, Media.movie, "Test Movie", none⟩).writes.length ≠ 1 :=
  ⟨rfl, by decide⟩

/-- C8: `hydrated` starts false, every completion of `hydrate` sets it to
true, no operation ever sets it back to false, and `add`, `remove` and
`toggle` leave it unchanged. -/
theorem hydrated_monotone :
    initialState.hydrated = false ∧
    (∀ (s : WatchlistState) (op : StoreOp),
      s.hydrated = true → (step s op).hydrated = true) ∧
    (∀ (s : WatchlistState) (r : ReadOutcome), (hydrate s r).hydrated = true) ∧
    (∀ (s : WatchlistState) (item : WatchlistItem),
      (add s item).state.hydrated = s.hydrated ∧
      (toggle s item).state.hydrated = s.hydrated) ∧
    (∀ (s : WatchlistState) (id : Int) (m : Media),
      (remove s id m).state.hydrated = s.hydrated) := by
  have hhyd : ∀ (s : WatchlistState) (r : ReadOutcome), (hydrate s r).hydrated = true := by
    intro s r
    cases r with
    | value w => cases w <;> rfl
    | _ => rfl
  have hadd : ∀ (s : WatchlistState) (item : WatchlistItem),
      (add s item).state.hydrated = s.hydrated := by
    intro s item
    simp only [add]
    split <;> rfl
  have hrem : ∀ (s : WatchlistState) (id : Int) (m : Media),
      (remove s id m).state.hydrated = s.hydrated := fun _ _ _ => rfl
  have htog : ∀ (s : WatchlistState) (item : WatchlistItem),
      (toggle s item).state.hydrated = s.hydrated := by
    intro s item
    simp only [toggle]
    split
    · exact hrem s item.id item.mediaType
    · exact hadd s item
  refine ⟨rfl, ?_, hhyd, fun s item => ⟨hadd s item, htog s item⟩, hrem⟩
  intro s op h
  cases op with
  | addOp item => rw [step, hadd, h]
  | removeOp id m => rw [step, hrem, h]
  | toggleOp item => rw [step, htog, h]
  | queryOp id m => exact h
  | hydrateOp r => exact hhyd s r

/-- Witness for C8 at a concrete input: a query step keeps `hydrated`
true. -/
theorem hydrated_monotone_witness :
    (step { items := [], hydrated := true } (StoreOp.queryOp 0 Media.movie)).hydrated = true :=
  hydrated_monotone.2.1 { items := [], hydrated := true } (StoreOp.queryOp 0 Media.movie) rfl

theorem add_state_stable (s : WatchlistState) (item : WatchlistItem)
    (h : s.items.any (fun x => keyMatches x item.id item.mediaType) = true) :
    (add s item).state = s := by
  simp only [add, h, if_true]

theorem add_state_grow (s : WatchlistState) (item : WatchlistItem)
    (h : s.items.any (fun x => keyMatches x item.id item.mediaType) = false) :
    (add s item).state.items = encodeItem item :: s.items := by
  simp only [add, h, Bool.false_eq_true, if_false]

theorem toggle_eq_remove (s : WatchlistState) (item : WatchlistItem)
    (h : isInWatchlist s item.id item.mediaType = true) :
    toggle s item = remove s item.id item.mediaType := by
  simp only [toggle, h, if_true]

theorem toggle_eq_add (s : WatchlistState) (item : WatchlistItem)
    (h : isInWatchlist s item.id item.mediaType = false) :
    toggle s item = add s item := by
  simp only [toggle, h, Bool.false_eq_true, if_false]

theorem uniqueKeys_add (s : WatchlistState) (item : WatchlistItem)
    (h : UniqueKeys s.items) : UniqueKeys (add s item).state.items := by
  by_cases hany : s.items.any (fun x => keyMatches x item.id item.mediaType) = true
  · rw [add_state_stable s item hany]; exact h
  · have hfalse : s.items.any (fun x => keyMatches x item.id item.mediaType) = false :=
      Bool.eq_false_iff.mpr hany
    rw [add_state_grow s item hfalse]
    show List.Pairwise (fun x y => keyOf x ≠ keyOf y) (encodeItem item :: s.items)
    refine List.Pairwise.cons ?_ h
    intro y hy heq
    rw [List.any_eq_false] at hfalse
    exact hfalse y hy ((keyMatches_iff y item.id item.mediaType).mpr
      (heq ▸ (rfl : keyOf (encodeItem item) =
        (JsVal.num item.id, JsVal.str item.mediaType.toStr))))

theorem uniqueKeys_remove (s : WatchlistState) (id : Int) (m : Media)
    (h : UniqueKeys s.items) : UniqueKeys (remove s id m).state.items := by
  have hs : (remove s id m).state.items =
      s.items.filter (fun x => !(keyMatches x id m)) := rfl
  rw [hs]
  exact h.filter _

theorem uniqueKeys_toggle (s : WatchlistState) (item : WatchlistItem)
    (h : UniqueKeys s.items) : UniqueKeys (toggle s item).state.items := by
  by_cases ht : isInWatchlist s item.id item.mediaType = true
  · rw [toggle_eq_remove s item ht]; exact uniqueKeys_remove s item.id item.mediaType h
  · rw [toggle_eq_add s item (Bool.eq_false_iff.mpr ht)]; exact uniqueKeys_add s item h

theorem uniqueKeys_step (s : WatchlistState) (op : StoreOp)
    (hop : isMutOp op = true) (h : UniqueKeys s.items) :
    UniqueKeys (step s op).items := by
  cases op with
  | addOp item => exact uniqueKeys_add s item h
  | removeOp id m => exact uniqueKeys_remove s id m h
  | toggleOp item => exact uniqueKeys_toggle s item h
  | queryOp id m => exact h
  | hydrateOp r => exact absurd hop (by simp [isMutOp])

theorem uniqueKeys_run (ops : List StoreOp) : ∀ s : WatchlistState,
    (∀ op ∈ ops, isMutOp op = true) → UniqueKeys s.items →
    UniqueKeys (run s ops).items := by
  induction ops with
  | nil => intro s _ h; exact h
  | cons op rest ih =>
    intro s hops h
    exact ih (step s op) (fun o ho => hops o (List.mem_cons_of_mem _ ho))
      (uniqueKeys_step s op (hops op (List.mem_cons_self _ _)) h)

theorem countMatches_pos_iff_any (l : List JsVal) (id : Int) (m : Media) :
    (l.any (fun x => keyMatches x id m) = true) ↔ 0 < countMatches l id m := by
  rw [List.any_eq_true, countMatches, List.length_pos]
  constructor
  · rintro ⟨x, hx, hp⟩ hnil
    rw [List.filter_eq_nil_iff] at hnil
    exact hnil x hx hp
  · intro hne
    obtain ⟨y, hy⟩ := List.exists_mem_of_ne_nil _ hne
    have hm := List.mem_filter.mp hy
    exact ⟨y, hm.1, hm.2⟩

theorem countMatches_repeated_add (item : WatchlistItem) (n : Nat) :
    countMatches ((addState item)^[n + 1] initialState).items
      item.id item.mediaType = 1 := by
  induction n with
  | zero =>
    rw [Function.iterate_one]
    have h1 : (addState item initialState).items = [encodeItem item] := rfl
    rw [h1]
    simp [countMatches, keyMatches_encode]
  | succ k ih =>
    rw [Function.iterate_succ_apply']
    have hany : ((addState item)^[k + 1] initialState).items.any
        (fun x => keyMatches x item.id item.mediaType) = true :=
      (countMatches_pos_iff_any _ _ _).mpr (by rw [ih]; exact Nat.one_pos)
    have hstate : addState item ((addState item)^[k + 1] initialState) =
        (addState item)^[k + 1] initialState :=
      add_state_stable _ item hany
    rw [hstate, ih]

/-- C1: in every run of store operations from the initial state in which
`add` is the only entry point for elements (no hydration step), no two
elements of `items` ever share the same `(id, mediaType)` pair; and after
any positive number of repeated adds of the same item, `items` contains
exactly one element matching its key. -/
theorem add_uniqueness_invariant :
    (∀ ops : List StoreOp, (∀ op ∈ ops, isMutOp op = true) →
      UniqueKeys (run initialState ops).items) ∧
    (∀ (item : WatchlistItem) (n : Nat),
      countMatches ((addState item)^[n + 1] initialState).items
        item.id item.mediaType = 1) :=
  ⟨fun ops hops => uniqueKeys_run ops initialState hops List.Pairwise.nil,
   fun item n => countMatches_repeated_add item n⟩

/-- Witness for C1 at a concrete input: a run of two adds and a toggle
keeps keys unique. -/
theorem add_uniqueness_invariant_witness :
    UniqueKeys (run initialState
      [StoreOp.addOp ⟨1, Media.movie, "Test Movie", none⟩,
       StoreOp.addOp ⟨2, Media.tv, "B", some "p"⟩,
       StoreOp.toggleOp ⟨1, Media.movie, "Test Movie", none⟩]).items :=
  add_uniqueness_invariant.1 _ (by decide)

theorem isInWatchlist_after_remove (s : WatchlistState) (id : Int) (m : Media) :
    isInWatchlist (remove s id m).state id m = false := by
  rw [isInWatchlist, List.any_eq_false]
  intro x hx
  have h2 := (List.mem_filter.mp
    (show x ∈ s.items.filter (fun y => !(keyMatches y id m)) from hx)).2
  intro hp
  rw [hp] at h2
  exact Bool.noConfusion h2

theorem length_remove (s : WatchlistState) (id : Int) (m : Media) :
    (remove s id m).state.items.length = s.items.length - countMatches s.items id m := by
  have hpart : s.items.length =
      (s.items.filter (fun x => keyMatches x id m)).length +
      (s.items.filter (fun x => !(keyMatches x id m))).length :=
    List.length_eq_length_filter_add _
  show (s.items.filter (fun x => !(keyMatches x id m))).length =
    s.items.length - countMatches s.items id m
  rw [countMatches]
  omega

/-- C3 is refuted at this concrete input: a hydrated state holding two
elements with the same `(id, mediaType)` key (reachable through the store's
own `hydrate`) has `items.length = 2`, but after `toggle(x); toggle(x)` the
length is 1 — the first toggle removes both duplicates and the second adds
one back, so `items.length` does not return to its pre-toggle value. -/
theorem toggle_toggle_counterexample :
    (hydrate initialState (.value (.arr
        [encodeItem ⟨1, Media.movie, "A", none⟩,
         encodeItem ⟨1, Media.movie, "A", none⟩]))).items.length = 2 ∧
    (toggle (toggle (hydrate initialState (.value (.arr
        [encodeItem ⟨1, Media.movie, "A", none⟩,
         encodeItem ⟨1, Media.movie, "A", none⟩])))
        ⟨1, Media.movie, "A", none⟩).state
      ⟨1, Media.movie, "A", none⟩).state.items.length = 1 ∧
    ¬((toggle (toggle (hydrate initialState (.value (.arr
        [encodeItem ⟨1, Media.movie, "A", none⟩,
         encodeItem ⟨1, Media.movie, "A", none⟩])))
        ⟨1, Media.movie, "A", none⟩).state
      ⟨1, Media.movie, "A", none⟩).state.items.length =
      (hydrate initialState (.value (.arr
        [encodeItem ⟨1, Media.movie, "A", none⟩,
         encodeItem ⟨1, Media.movie, "A", none⟩]))).items.length) :=
  ⟨rfl, rfl, by decide⟩

/-- C3 (amended): `toggle(x); toggle(x)` always preserves membership of
`(x.id, x.mediaType)` (present→absent→present or absent→present→absent);
`items.length` returns to its pre-toggle value whenever at most one element
matches the key — in particular in every state satisfying the uniqueness
invariant, and in every state reachable without hydration. -/
theorem toggle_toggle_amended (s : WatchlistState) (item : WatchlistItem) :
    isInWatchlist (toggle (toggle s item).state item).state item.id item.mediaType =
      isInWatchlist s item.id item.mediaType ∧
    (countMatches s.items item.id item.mediaType ≤ 1 →
      (toggle (toggle s item).state item).state.items.length = s.items.length) := by
  by_cases h : isInWatchlist s item.id item.mediaType = true
  · have ht1 : toggle s item = remove s item.id item.mediaType :=
      toggle_eq_remove s item h
    have h2 : isInWatchlist (toggle s item).state item.id item.mediaType = false := by
      rw [ht1]; exact isInWatchlist_after_remove s item.id item.mediaType
    have ht2 : toggle (toggle s item).state item = add (toggle s item).state item :=
      toggle_eq_add _ item h2
    have hgrow : (add (toggle s item).state item).state.items =
        encodeItem item :: (toggle s item).state.items :=
      add_state_grow _ item h2
    constructor
    · rw [ht2, isInWatchlist, hgrow, List.any_cons, keyMatches_encode, h]
      rfl
    · intro hcount
      have hpos : 0 < countMatches s.items item.id item.mediaType :=
        (countMatches_pos_iff_any s.items item.id item.mediaType).mp h
      have hone : countMatches s.items item.id item.mediaType = 1 :=
        Nat.le_antisymm hcount hpos
      have hle : countMatches s.items item.id item.mediaType ≤ s.items.length := by
        rw [countMatches]; exact List.length_filter_le _ _
      rw [ht2, hgrow, List.length_cons, ht1, length_remove, hone]
      omega
  · have h' : isInWatchlist s item.id item.mediaType = false := Bool.eq_false_iff.mpr h
    have ht1 : toggle s item = add s item := toggle_eq_add s item h'
    have hgrow : (add s item).state.items = encodeItem item :: s.items :=
      add_state_grow s item h'
    have h2 : isInWatchlist (toggle s item).state item.id item.mediaType = true := by
      rw [ht1, isInWatchlist, hgrow, List.any_cons, keyMatches_encode]
      rfl
    have ht2 : toggle (toggle s item).state item =
        remove (toggle s item).state item.id item.mediaType :=
      toggle_eq_remove _ item h2
    have hfl : (toggle s item).state.items.filter
        (fun x => !(keyMatches x item.id item.mediaType)) = s.items := by
      rw [ht1, hgrow, List.filter_cons]
      rw [keyMatches_encode]
      show (s.items.filter (fun x => !(keyMatches x item.id item.mediaType))) = s.items
      refine List.filter_eq_self.mpr (fun a ha => ?_)
      rw [isInWatchlist, List.any_eq_false] at h'
      have := h' a ha
      simp only [Bool.not_eq_true] at this ⊢
      rw [this]
      rfl
    have hrm : (remove (toggle s item).state item.id item.mediaType).state.items =
        s.items := by
      show ((toggle s item).state.items.filter
        (fun x => !(keyMatches x item.id item.mediaType))) = s.items
      exact hfl
    constructor
    · rw [ht2, isInWatchlist, hrm, h']
      exact h'
    · intro _
      rw [ht2, hrm]

/-- Witness for C3 (amended) at a concrete input: double toggle on the
empty initial state restores the length. -/
theorem toggle_toggle_amended_witness :
    (toggle (toggle initialState ⟨1, Media.movie, "Test Movie", none⟩).state
        ⟨1, Media.movie, "Test Movie", none⟩).state.items.length =
      initialState.items.length :=
  (toggle_toggle_amended initialState ⟨1, Media.movie, "Test Movie", none⟩).2 (by decide)

theorem jsFieldE_ok (x : JsVal) (k : String) (h : throwsOnAccess x = false) :
    jsFieldE x k = .ok (jsField x k) := by
  cases x <;> first | rfl | exact Bool.noConfusion h

theorem keyMatchesE_ok (x : JsVal) (id : Int) (m : Media)
    (h : throwsOnAccess x = false) :
    keyMatchesE x id m = .ok (keyMatches x id m) := by
  simp only [keyMatchesE, jsFieldE_ok x "id" h, jsFieldE_ok x "mediaType" h]
  by_cases hq : jsEqNum (jsField x "id") id = true
  · simp [hq, keyMatches]
  · have hq' := Bool.eq_false_iff.mpr hq
    simp [hq', keyMatches]

theorem anyE_ok (p : JsVal → Except String Bool) (q : JsVal → Bool) :
    ∀ l : List JsVal, (∀ x ∈ l, p x = .ok (q x)) → anyE l p = .ok (l.any q) := by
  intro l
  induction l with
  | nil => intro _; rfl
  | cons x rest ih =>
    intro h
    have hx := h x (List.mem_cons_self _ _)
    simp only [anyE, hx, List.any_cons]
    cases hq : q x
    · simp only [hq, Bool.false_or]
      exact ih (fun y hy => h y (List.mem_cons_of_mem _ hy))
    · simp only [hq, Bool.true_or]

theorem filterE_ok (p : JsVal → Except String Bool) (q : JsVal → Bool) :
    ∀ l : List JsVal, (∀ x ∈ l, p x = .ok (q x)) →
    filterE l p = .ok (l.filter q) := by
  intro l
  induction l with
  | nil => intro _; rfl
  | cons x rest ih =>
    intro h
    have hx := h x (List.mem_cons_self _ _)
    have hr := ih (fun y hy => h y (List.mem_cons_of_mem _ hy))
    simp only [filterE, hx, hr, List.filter_cons]

theorem isInWatchlistE_ok (s : WatchlistState) (id : Int) (m : Media)
    (h : ∀ x ∈ s.items, throwsOnAccess x = false) :
    isInWatchlistE s id m = .ok (isInWatchlist s id m) :=
  anyE_ok _ _ s.items (fun x hx => keyMatchesE_ok x id m (h x hx))

theorem addE_ok (s : WatchlistState) (item : WatchlistItem) (w : WriteOutcome)
    (h : ∀ x ∈ s.items, throwsOnAccess x = false) :
    addE s item w = .ok (add s item) := by
  have ha := anyE_ok (fun x => keyMatchesE x item.id item.mediaType)
    (fun x => keyMatches x item.id item.mediaType) s.items
    (fun x hx => keyMatchesE_ok x item.id item.mediaType (h x hx))
  have hpc : persistCaught w = Except.ok () := by cases w <;> rfl
  by_cases hq : s.items.any (fun x => keyMatches x item.id item.mediaType) = true
  · simp only [addE, ha, hq, add, if_true]
  · have hq' := Bool.eq_false_iff.mpr hq
    simp only [addE, ha, hq', hpc, add, Bool.false_eq_true, if_false]

theorem removeE_ok (s : WatchlistState) (id : Int) (m : Media) (w : WriteOutcome)
    (h : ∀ x ∈ s.items, throwsOnAccess x = false) :
    removeE s id m w = .ok (remove s id m) := by
  have hf := filterE_ok (fun x =>
      match keyMatchesE x id m with
      | .error e => .error e
      | .ok b => .ok (!b))
    (fun x => !(keyMatches x id m)) s.items
    (fun x hx => by simp only [keyMatchesE_ok x id m (h x hx)])
  have hpc : persistCaught w = Except.ok () := by cases w <;> rfl
  simp only [removeE, hf, hpc, remove]

theorem toggleE_ok (s : WatchlistState) (item : WatchlistItem) (w : WriteOutcome)
    (h : ∀ x ∈ s.items, throwsOnAccess x = false) :
    toggleE s item w = .ok (toggle s item) := by
  have hi := isInWatchlistE_ok s item.id item.mediaType h
  by_cases hq : isInWatchlist s item.id item.mediaType = true
  · simp only [toggleE, hi, hq, toggle, if_true]
    exact removeE_ok s item.id item.mediaType w h
  · have hq' := Bool.eq_false_iff.mpr hq
    simp only [toggleE, hi, hq', toggle, Bool.false_eq_true, if_false]
    exact addE_ok s item w h

/-- C4 is refuted at this concrete input: the hydrate-reachable state
`items = [null]` contains no element matching the key, so the claim
asserts `add` prepends; but the real `add` throws a TypeError inside the
`some` scan (`null.id`) and mutates nothing. -/
theorem add_throws_counterexample :
    (hydrate initialState (.value (.arr [JsVal.null]))).items = [JsVal.null] ∧
    keyMatchesE JsVal.null 1 Media.movie = .error "TypeError" ∧
    addE (hydrate initialState (.value (.arr [JsVal.null])))
      ⟨1, Media.movie, "A", none⟩ WriteOutcome.ok = .error "TypeError" :=
  ⟨rfl, rfl, rfl⟩

/-- C4 (amended): for every state none of whose elements are `null` or
`undefined` (in particular every state of well-formed items, and every
state reachable without hydrating a payload containing such entries),
`add(item)` is a no-op when an element with the same `(id, mediaType)` is
already present, and otherwise resolves with the item prepended to the
front of `items`, all previously present elements following in their prior
order. -/
theorem add_functional_amended (s : WatchlistState) (item : WatchlistItem)
    (w : WriteOutcome) (h : ∀ x ∈ s.items, throwsOnAccess x = false) :
    (isInWatchlist s item.id item.mediaType = true →
      addE s item w = .ok { state := s, writes := [] }) ∧
    (isInWatchlist s item.id item.mediaType = false →
      addE s item w = .ok { state := { s with items := encodeItem item :: s.items },
                            writes := [encodeItem item :: s.items] }) := by
  have hb := addE_ok s item w h
  constructor <;> intro hm <;> rw [hb]
  · have he : add s item = { state := s, writes := [] } := by
      simp only [add,
        show s.items.any (fun x => keyMatches x item.id item.mediaType) = true from hm,
        if_true]
    rw [he]
  · have he : add s item =
        { state := { s with items := encodeItem item :: s.items },
          writes := [encodeItem item :: s.items] } := by
      simp only [add,
        show s.items.any (fun x => keyMatches x item.id item.mediaType) = false from hm,
        Bool.false_eq_true, if_false]
    rw [he]

/-- Witness for C4 (amended) at a concrete input: adding to the empty
initial state resolves with the encoded item prepended. -/
theorem add_functional_amended_witness :
    addE initialState ⟨1, Media.movie, "Test Movie", none⟩ WriteOutcome.ok =
      .ok { state := { items := [encodeItem ⟨1, Media.movie, "Test Movie", none⟩],
                       hydrated := false },
            writes := [[encodeItem ⟨1, Media.movie, "Test Movie", none⟩]] } :=
  (add_functional_amended initialState ⟨1, Media.movie, "Test Movie", none⟩
    WriteOutcome.ok (by decide)).2 rfl

/-- C5 (amended): in every state none of whose elements are `null` or
`undefined`, `add(item)` triggers exactly one serialized-write attempt
whose payload is the new full `items` sequence with the added item at its
front when the item is not already present, and no write at all when an
element with the same `(id, mediaType)` is already present.  (At a state
with a `null`/`undefined` element the membership scan throws before
`persist` is ever reached.) -/
theorem add_persist_amended (s : WatchlistState) (item : WatchlistItem)
    (w : WriteOutcome) (h : ∀ x ∈ s.items, throwsOnAccess x = false) :
    (isInWatchlist s item.id item.mediaType = false →
      (addE s item w).map MutResult.writes = .ok [encodeItem item :: s.items]) ∧
    (isInWatchlist s item.id item.mediaType = true →
      (addE s item w).map MutResult.writes = .ok []) := by
  have hb := addE_ok s item w h
  constructor <;> intro hm <;> rw [hb]
  · have he : add s item =
        { state := { s with items := encodeItem item :: s.items },
          writes := [encodeItem item :: s.items] } := by
      simp only [add,
        show s.items.any (fun x => keyMatches x item.id item.mediaType) = false from hm,
        Bool.false_eq_true, if_false]
    rw [he]
    rfl
  · have he : add s item = { state := s, writes := [] } := by
      simp only [add,
        show s.items.any (fun x => keyMatches x item.id item.mediaType) = true from hm,
        if_true]
    rw [he]
    rfl

/-- Witness for C5 (amended) at a concrete input: the first add performs
exactly the one-element-payload write. -/
theorem add_persist_amended_witness :
    (addE initialState ⟨1, Media.movie, "Test Movie", none⟩ WriteOutcome.ok).map
        MutResult.writes =
      .ok [encodeItem ⟨1, Media.movie, "Test Movie", none⟩ :: initialState.items] :=
  (add_persist_amended initialState ⟨1, Media.movie, "Test Movie", none⟩
    WriteOutcome.ok (by decide)).1 rfl

/-- C6 is refuted at this concrete input: the hydrate-reachable state
`[item, null]` holds an element matching the key, but the real `remove`
throws a TypeError mid-filter when the callback reaches `null`, so the
matching element is never excluded (the state is left untouched instead of
equalling the filter of the old sequence). -/
theorem remove_throws_counterexample :
    (hydrate initialState (.value (.arr
        [encodeItem ⟨1, Media.movie, "A", none⟩, JsVal.null]))).items =
      [encodeItem ⟨1, Media.movie, "A", none⟩, JsVal.null] ∧
    keyMatches (encodeItem ⟨1, Media.movie, "A", none⟩) 1 Media.movie = true ∧
    removeE (hydrate initialState (.value (.arr
        [encodeItem ⟨1, Media.movie, "A", none⟩, JsVal.null])))
      1 Media.movie WriteOutcome.ok = .error "TypeError" :=
  ⟨rfl, rfl, rfl⟩

/-- C6 (amended): for every state none of whose elements are `null` or
`undefined`, `remove` resolves and its items are exactly the old sequence
with every element matching the key excluded; removing an absent key
leaves the state unchanged, and `remove` is idempotent (the second
application also resolves, to the same state). -/
theorem remove_filter_amended (s : WatchlistState) (id : Int) (m : Media)
    (w : WriteOutcome) (h : ∀ x ∈ s.items, throwsOnAccess x = false) :
    removeE s id m w = .ok (remove s id m) ∧
    (remove s id m).state.items = s.items.filter (fun x => !(keyMatches x id m)) ∧
    ((∀ x ∈ s.items, keyMatches x id m = false) → (remove s id m).state = s) ∧
    removeE (remove s id m).state id m w = .ok (remove (remove s id m).state id m) ∧
    (remove (remove s id m).state id m).state = (remove s id m).state := by
  refine ⟨removeE_ok s id m w h, rfl, ?_, ?_, ?_⟩
  · intro hnone
    have hf : s.items.filter (fun x => !(keyMatches x id m)) = s.items :=
      List.filter_eq_self.mpr (fun a ha => by rw [hnone a ha]; rfl)
    show ({ s with items := s.items.filter (fun x => !(keyMatches x id m)) } :
      WatchlistState) = s
    rw [hf]
  · refine removeE_ok _ id m w (fun x hx => ?_)
    exact h x (List.mem_filter.mp
      (show x ∈ s.items.filter (fun y => !(keyMatches y id m)) from hx)).1
  · have hf : ((remove s id m).state.items.filter (fun x => !(keyMatches x id m))) =
        (remove s id m).state.items :=
      List.filter_eq_self.mpr (fun a ha =>
        (List.mem_filter.mp
          (show a ∈ s.items.filter (fun x => !(keyMatches x id m)) from ha)).2)
    show ({ (remove s id m).state with
      items := (remove s id m).state.items.filter (fun x => !(keyMatches x id m)) } :
      WatchlistState) = (remove s id m).state
    rw [hf]

/-- Witness for C6 (amended) at a concrete input: removing an absent key
from the initial state leaves it unchanged. -/
theorem remove_filter_amended_witness :
    (remove initialState 5 Media.tv).state = initialState :=
  (remove_filter_amended initialState 5 Media.tv WriteOutcome.ok (by decide)).2.2.1
    (fun x hx => by simp [initialState] at hx)

/-- C7 is refuted at this concrete input: at the hydrate-reachable state
`items = [null]`, `isInWatchlist`, `add`, `remove` and `toggle` all raise
a TypeError to the caller (`null.id` inside the `some`/`filter`
callbacks). -/
theorem store_ops_raise_counterexample :
    (hydrate initialState (.value (.arr [JsVal.null]))).items = [JsVal.null] ∧
    isInWatchlistE (hydrate initialState (.value (.arr [JsVal.null])))
      7 Media.tv = .error "TypeError" ∧
    removeE (hydrate initialState (.value (.arr [JsVal.null])))
      7 Media.tv WriteOutcome.ok = .error "TypeError" ∧
    toggleE (hydrate initialState (.value (.arr [JsVal.null])))
      ⟨7, Media.tv, "B", none⟩ WriteOutcome.ok = .error "TypeError" ∧
    addE (hydrate initialState (.value (.arr [JsVal.null])))
      ⟨7, Media.tv, "B", none⟩ WriteOutcome.ok = .error "TypeError" :=
  ⟨rfl, rfl, rfl, rfl, rfl⟩

/-- C7 (amended): for every state none of whose elements are `null` or
`undefined` and every outcome of the backing store's `setItem` (success or
rejection), `add`, `remove`, `toggle` and `isInWatchlist` resolve without
raising, and the result equals the total model's — which does not mention
the write outcome at all, so a persistence write failure neither surfaces
nor alters the in-memory items the mutation set. -/
theorem store_ops_never_raise_amended (s : WatchlistState) (item : WatchlistItem)
    (id : Int) (m : Media) (w : WriteOutcome)
    (h : ∀ x ∈ s.items, throwsOnAccess x = false) :
    addE s item w = .ok (add s item) ∧
    removeE s id m w = .ok (remove s id m) ∧
    toggleE s item w = .ok (toggle s item) ∧
    isInWatchlistE s id m = .ok (isInWatchlist s id m) :=
  ⟨addE_ok s item w h, removeE_ok s id m w h, toggleE_ok s item w h,
   isInWatchlistE_ok s id m h⟩

/-- Witness for C7 (amended) at a concrete input: on a one-item state, an
add whose write fails still resolves to the pure mutation's result. -/
theorem store_ops_never_raise_amended_witness :
    addE (add initialState ⟨1, Media.movie, "Test Movie", none⟩).state
        ⟨2, Media.tv, "B", some "p"⟩ (WriteOutcome.fail "disk full") =
      .ok (add (add initialState ⟨1, Media.movie, "Test Movie", none⟩).state
        ⟨2, Media.tv, "B", some "p"⟩) :=
  (store_ops_never_raise_amended
    (add initialState ⟨1, Media.movie, "Test Movie", none⟩).state
    ⟨2, Media.tv, "B", some "p"⟩ 1 Media.movie
    (WriteOutcome.fail "disk full") (by decide)).1

end Flickwatch
